import Mathlib

/-!
Verification of the masternodes state-overlay layer
(`src/masternodes/masternodes.h`, `src/masternodes/mn_rpc.cpp`).

C++ `std::map` is embedded as a strictly key-sorted association list
(`List (κ × α)`); `uint256` and `CKeyID` are embedded as `Nat` (a null
hash / null key id is `0`); `uint32_t` arithmetic is `Nat` arithmetic
taken modulo `2 ^ 32` at each operation.

Function bodies that live in the header are translated directly; bodies
that live in a translation unit absent from the available sources are
modelled from the specification and carry a doc comment starting with
`Modelled from the spec:`.
-/

namespace MN

/-! ### Ordered-map model (`std::map` as a strictly sorted assoc list) -/

/-- Keys strictly increase along the list (`std::map` iteration order). -/
def SortedKeys {κ α : Type} [LinearOrder κ] (m : List (κ × α)) : Prop :=
  List.Pairwise (fun a b => a.1 < b.1) m

instance {κ α : Type} [LinearOrder κ] (m : List (κ × α)) :
    Decidable (SortedKeys m) := by
  unfold SortedKeys; infer_instance

/-- `std::map::find` -- first (and in a well-formed map, only) match. -/
def mapFind {κ α : Type} [DecidableEq κ] : List (κ × α) → κ → Option α
  | [], _ => none
  | (k1, v1) :: t, k => if k = k1 then some v1 else mapFind t k

/-- `m[k] = v` -- sorted insert, overwriting an existing binding. -/
def mapSet {κ α : Type} [LinearOrder κ] : List (κ × α) → κ → α → List (κ × α)
  | [], k, v => [(k, v)]
  | (k1, v1) :: t, k, v =>
    if k < k1 then (k, v) :: (k1, v1) :: t
    else if k = k1 then (k, v) :: t
    else (k1, v1) :: mapSet t k v

/-- `std::map::insert` -- sorted insert that keeps an existing binding. -/
def mapInsertKeep {κ α : Type} [LinearOrder κ] : List (κ × α) → κ → α → List (κ × α)
  | [], k, v => [(k, v)]
  | (k1, v1) :: t, k, v =>
    if k < k1 then (k, v) :: (k1, v1) :: t
    else if k = k1 then (k1, v1) :: t
    else (k1, v1) :: mapInsertKeep t k v

/-- `for (pair : src) dst[pair.first] = pair.second` (overwrite merge). -/
def applyEntries {κ α : Type} [LinearOrder κ]
    (dst src : List (κ × α)) : List (κ × α) :=
  src.foldl (fun acc p => mapSet acc p.1 p.2) dst

/-- `dst.insert(src.begin(), src.end())` (keep-existing merge). -/
def insertRange {κ α : Type} [LinearOrder κ]
    (dst src : List (κ × α)) : List (κ × α) :=
  src.foldl (fun acc p => mapInsertKeep acc p.1 p.2) dst

theorem mapFind_eq_none {κ α : Type} [DecidableEq κ]
    {m : List (κ × α)} {k : κ} (h : ∀ p ∈ m, p.1 ≠ k) : mapFind m k = none := by
  induction m with
  | nil => rfl
  | cons p t ih =>
    obtain ⟨k1, v1⟩ := p
    have hk : k ≠ k1 := fun he => (h (k1, v1) (by simp)) (by simp [he])
    simp only [mapFind, if_neg hk]
    exact ih (fun q hq => h q (by simp [hq]))

theorem mapFind_mapSet {κ α : Type} [LinearOrder κ]
    (m : List (κ × α)) (k k' : κ) (v : α) :
    mapFind (mapSet m k v) k' = if k' = k then some v else mapFind m k' := by
  induction m with
  | nil => simp [mapSet, mapFind]
  | cons p t ih =>
    obtain ⟨k1, v1⟩ := p
    by_cases h1 : k < k1
    · simp only [mapSet, if_pos h1]
      by_cases h2 : k' = k
      · simp [mapFind, h2]
      · simp [mapFind, h2]
    · by_cases h2 : k = k1
      · subst h2
        simp only [mapSet, if_neg h1, if_pos rfl]
        by_cases h3 : k' = k
        · simp [mapFind, h3]
        · simp [mapFind, h3]
      · simp only [mapSet, if_neg h1, if_neg h2]
        by_cases h3 : k' = k1
        · have hne : k' ≠ k := fun he => h2 (he.symm.trans h3)
          have h2s : k1 ≠ k := fun he => h2 he.symm
          simp [mapFind, h3, hne, h2s]
        · simp [mapFind, h3, ih]

theorem mem_mapSet {κ α : Type} [LinearOrder κ]
    {m : List (κ × α)} {k : κ} {v : α} :
    ∀ p ∈ mapSet m k v, p.1 = k ∨ p ∈ m := by
  induction m with
  | nil => intro p hp; simp only [mapSet, List.mem_singleton] at hp; left; simp [hp]
  | cons q t ih =>
    obtain ⟨k1, v1⟩ := q
    intro p hp
    by_cases h1 : k < k1
    · simp only [mapSet, if_pos h1] at hp
      rcases List.mem_cons.mp hp with he | hm
      · left; simp [he]
      · right; exact hm
    · by_cases h2 : k = k1
      · subst h2
        simp only [mapSet, if_neg h1, if_pos rfl] at hp
        rcases List.mem_cons.mp hp with he | hm
        · left; simp [he]
        · right; simp [hm]
      · simp only [mapSet, if_neg h1, if_neg h2] at hp
        rcases List.mem_cons.mp hp with he | hm
        · right; simp [he]
        · rcases ih p hm with h | h
          · left; exact h
          · right; simp [h]

theorem mapSet_sorted {κ α : Type} [LinearOrder κ]
    {m : List (κ × α)} (hm : SortedKeys m) (k : κ) (v : α) :
    SortedKeys (mapSet m k v) := by
  induction m with
  | nil => simp [mapSet, SortedKeys]
  | cons p t ih =>
    obtain ⟨k1, v1⟩ := p
    rw [SortedKeys, List.pairwise_cons] at hm
    obtain ⟨hlt, ht⟩ := hm
    by_cases h1 : k < k1
    · rw [mapSet, if_pos h1]
      rw [SortedKeys, List.pairwise_cons]
      refine ⟨?_, List.pairwise_cons.mpr ⟨hlt, ht⟩⟩
      intro b hb
      rcases List.mem_cons.mp hb with he | hbt
      · simp [he, h1]
      · exact lt_trans h1 (hlt b hbt)
    · by_cases h2 : k = k1
      · subst h2
        rw [mapSet, if_neg h1, if_pos rfl]
        rw [SortedKeys, List.pairwise_cons]
        exact ⟨hlt, ht⟩
      · have hk1k : k1 < k := by
          rcases lt_trichotomy k k1 with h | h | h
          · exact absurd h h1
          · exact absurd h h2
          · exact h
        rw [mapSet, if_neg h1, if_neg h2]
        rw [SortedKeys, List.pairwise_cons]
        refine ⟨?_, ih ht⟩
        intro b hb
        rcases mem_mapSet b hb with hk | hbt
        · simpa [hk] using hk1k
        · exact hlt b hbt

/-- First-hit choice between two optional reads (overlay, then base). -/
def optOr {α : Type} (a b : Option α) : Option α :=
  match a with
  | some v => some v
  | none => b

theorem optOr_none {α : Type} (a : Option α) : optOr a none = a := by
  cases a <;> rfl

theorem mem_mapInsertKeep {κ α : Type} [LinearOrder κ]
    {m : List (κ × α)} {k : κ} {v : α} :
    ∀ p ∈ mapInsertKeep m k v, p.1 = k ∨ p ∈ m := by
  induction m with
  | nil => intro p hp; simp only [mapInsertKeep, List.mem_singleton] at hp; left; simp [hp]
  | cons q t ih =>
    obtain ⟨k1, v1⟩ := q
    intro p hp
    by_cases h1 : k < k1
    · simp only [mapInsertKeep, if_pos h1] at hp
      rcases List.mem_cons.mp hp with he | hm
      · left; simp [he]
      · right; exact hm
    · by_cases h2 : k = k1
      · subst h2
        simp only [mapInsertKeep, if_neg h1, if_pos rfl] at hp
        right; exact hp
      · simp only [mapInsertKeep, if_neg h1, if_neg h2] at hp
        rcases List.mem_cons.mp hp with he | hm
        · right; simp [he]
        · rcases ih p hm with h | h
          · left; exact h
          · right; simp [h]

theorem mapInsertKeep_sorted {κ α : Type} [LinearOrder κ]
    {m : List (κ × α)} (hm : SortedKeys m) (k : κ) (v : α) :
    SortedKeys (mapInsertKeep m k v) := by
  induction m with
  | nil => simp [mapInsertKeep, SortedKeys]
  | cons p t ih =>
    obtain ⟨k1, v1⟩ := p
    rw [SortedKeys, List.pairwise_cons] at hm
    obtain ⟨hlt, ht⟩ := hm
    by_cases h1 : k < k1
    · rw [mapInsertKeep, if_pos h1]
      rw [SortedKeys, List.pairwise_cons]
      refine ⟨?_, List.pairwise_cons.mpr ⟨hlt, ht⟩⟩
      intro b hb
      rcases List.mem_cons.mp hb with he | hbt
      · simp [he, h1]
      · exact lt_trans h1 (hlt b hbt)
    · by_cases h2 : k = k1
      · subst h2
        rw [mapInsertKeep, if_neg h1, if_pos rfl]
        rw [SortedKeys, List.pairwise_cons]
        exact ⟨hlt, ht⟩
      · have hk1k : k1 < k := by
          rcases lt_trichotomy k k1 with h | h | h
          · exact absurd h h1
          · exact absurd h h2
          · exact h
        rw [mapInsertKeep, if_neg h1, if_neg h2]
        rw [SortedKeys, List.pairwise_cons]
        refine ⟨?_, ih ht⟩
        intro b hb
        rcases mem_mapInsertKeep b hb with hk | hbt
        · simpa [hk] using hk1k
        · exact hlt b hbt

theorem mapFind_eq_none_of_sorted_head {κ α : Type} [LinearOrder κ]
    {k1 : κ} {v1 : α} {t : List (κ × α)} {k : κ}
    (hm : SortedKeys ((k1, v1) :: t)) (h : k < k1) :
    mapFind ((k1, v1) :: t) k = none := by
  rw [SortedKeys, List.pairwise_cons] at hm
  refine mapFind_eq_none ?_
  intro p hp
  rcases List.mem_cons.mp hp with he | hpt
  · intro hk; rw [he] at hk; simp at hk; exact absurd hk (ne_of_lt h).symm
  · intro hk; exact absurd (hk ▸ lt_trans h (hm.1 p hpt)) (lt_irrefl _)

theorem mapFind_head_key_tail_none {κ α : Type} [LinearOrder κ]
    {k0 : κ} {v0 : α} {t : List (κ × α)}
    (hm : SortedKeys ((k0, v0) :: t)) :
    mapFind t k0 = none := by
  rw [SortedKeys, List.pairwise_cons] at hm
  refine mapFind_eq_none ?_
  intro p hp hk
  exact absurd (hk ▸ hm.1 p hp) (lt_irrefl _)

theorem mapFind_mapInsertKeep {κ α : Type} [LinearOrder κ]
    {m : List (κ × α)} (hm : SortedKeys m) (k k' : κ) (v : α) :
    mapFind (mapInsertKeep m k v) k' =
      if k' = k then optOr (mapFind m k) (some v) else mapFind m k' := by
  induction m with
  | nil =>
    by_cases h : k' = k
    · simp [mapInsertKeep, mapFind, h, optOr]
    · simp [mapInsertKeep, mapFind, h]
  | cons p t ih =>
    obtain ⟨k1, v1⟩ := p
    have hmc := hm
    rw [SortedKeys, List.pairwise_cons] at hmc
    obtain ⟨hlt, ht⟩ := hmc
    by_cases h1 : k < k1
    · rw [mapInsertKeep, if_pos h1]
      by_cases h2 : k' = k
      · subst h2
        rw [mapFind_eq_none_of_sorted_head hm h1]
        simp [mapFind, optOr]
      · simp [mapFind, h2]
    · by_cases h2 : k = k1
      · subst h2
        rw [mapInsertKeep, if_neg h1, if_pos rfl]
        by_cases h3 : k' = k
        · simp [mapFind, h3, optOr]
        · simp [mapFind, h3]
      · have hk1k : k1 < k := by
          rcases lt_trichotomy k k1 with h | h | h
          · exact absurd h h1
          · exact absurd h h2
          · exact h
        rw [mapInsertKeep, if_neg h1, if_neg h2]
        by_cases h3 : k' = k
        · subst h3
          have hne : k' ≠ k1 := h2
          simp only [mapFind, if_neg hne, if_pos rfl]
          rw [ih ht]
          simp
        · by_cases h4 : k' = k1
          · have h2s : k1 ≠ k := fun he => h2 he.symm
            simp [mapFind, h4, h3, h2s]
          · simp only [mapFind, if_neg h4, if_neg h3]
            rw [ih ht]
            simp [h3]

theorem applyEntries_find {κ α : Type} [LinearOrder κ]
    {o : List (κ × α)} (ho : SortedKeys o) (m : List (κ × α)) (k : κ) :
    mapFind (applyEntries m o) k = optOr (mapFind o k) (mapFind m k) := by
  induction o generalizing m with
  | nil => simp [applyEntries, mapFind, optOr]
  | cons p t ih =>
    obtain ⟨k0, v0⟩ := p
    have hoc := ho
    rw [SortedKeys, List.pairwise_cons] at hoc
    obtain ⟨hlt, ht⟩ := hoc
    show mapFind (applyEntries (mapSet m k0 v0) t) k = _
    rw [ih ht, mapFind_mapSet]
    by_cases h : k = k0
    · subst h
      rw [mapFind_head_key_tail_none ho]
      simp [mapFind, optOr]
    · simp [mapFind, h]

theorem insertRange_find {κ α : Type} [LinearOrder κ]
    {m : List (κ × α)} (hm : SortedKeys m) (o : List (κ × α)) (k : κ) :
    mapFind (insertRange m o) k = optOr (mapFind m k) (mapFind o k) := by
  induction o generalizing m with
  | nil => simp [insertRange, mapFind, optOr_none]
  | cons p t ih =>
    obtain ⟨k0, v0⟩ := p
    show mapFind (insertRange (mapInsertKeep m k0 v0) t) k = _
    rw [ih (mapInsertKeep_sorted hm k0 v0), mapFind_mapInsertKeep hm]
    by_cases h : k = k0
    · subst h
      cases hf : mapFind m k <;> simp [mapFind, optOr, hf]
    · simp [mapFind, h]

/-! ### Data model (`masternodes.h`) -/

/-- `enum class MasternodesTxType : unsigned char` (masternodes.h:30-35). -/
inductive MasternodesTxType : Type
  | None
  | CreateMasternode
  | ResignMasternode
deriving DecidableEq, Repr

/-- Tag-byte decoding of `Unserialize(Stream&, MasternodesTxType&)`
(masternodes.h:43-50): byte `'C'` (67) and `'R'` (82) decode to the two
operations, every other byte decodes to `None`.  Total by construction. -/
def unserializeMasternodesTxType (ch : Nat) : MasternodesTxType :=
  if ch = 67 then MasternodesTxType.CreateMasternode
  else if ch = 82 then MasternodesTxType.ResignMasternode
  else MasternodesTxType.None

/-- `static const unsigned int DOUBLE_SIGN_MINIMUM_PROOF_INTERVAL = 100`
(masternodes.h:28). -/
def DOUBLE_SIGN_MINIMUM_PROOF_INTERVAL : Nat := 100

/-- `class CMasternode` (masternodes.h:59-131).  `CKeyID` and `uint256`
fields are embedded as `Nat` (0 = null), `char` tags and heights as `Int`,
the `uint32_t` minted-blocks counter as `Nat` reduced mod `2 ^ 32`. -/
structure CMasternode : Type where
  mintedBlocks : Nat
  ownerAuthAddress : Nat
  ownerType : Int
  operatorAuthAddress : Nat
  operatorType : Int
  creationHeight : Int
  resignHeight : Int
  banHeight : Int
  resignTx : Nat
  banTx : Nat
deriving DecidableEq, Repr

/-- Modelled from the spec: the body of the empty constructor
`CMasternode::CMasternode()` is not under `src/` (declared at
masternodes.h:95).  Per the data model ("resignation height (−1 if
active); ban height (−1 if not banned)") the default record carries null
keys/hashes, zero counters and −1 sentinel heights.  A default-constructed
record is the tombstone value used by the overlay
(`it->second != CMasternode()`, masternodes.h:379). -/
def CMasternode.empty : CMasternode :=
  { mintedBlocks := 0
    ownerAuthAddress := 0
    ownerType := 0
    operatorAuthAddress := 0
    operatorType := 0
    creationHeight := 0
    resignHeight := -1
    banHeight := -1
    resignTx := 0
    banTx := 0 }

/-- `enum class AuthIndex { ByOwner, ByOperator }` (masternodes.h:176). -/
inductive AuthIndex : Type
  | ByOwner
  | ByOperator
deriving DecidableEq, Repr

/-- `CMnTxsUndo = std::map<int, std::pair<uint256, MasternodesTxType>>`
(masternodes.h:170). -/
abbrev CMnTxsUndo := List (Int × (Nat × MasternodesTxType))

/-- The mutable table state of a `CMasternodesView` (masternodes.h:178-189,
restricted to the four maps inspected by `IsEmpty`, masternodes.h:199-202):
`allNodes : nodeId -> masternode`, the two auth indices
`owner/operator key -> nodeId`, and the per-height undo log. -/
structure CMasternodesView : Type where
  allNodes : List (Nat × CMasternode)
  nodesByOwner : List (Nat × Nat)
  nodesByOperator : List (Nat × Nat)
  blocksUndo : List (Int × CMnTxsUndo)
deriving DecidableEq, Repr

namespace CMasternodesView

/-- A freshly constructed view: "cached items are empty!"
(masternodes.h:333). -/
def emptyView : CMasternodesView :=
  { allNodes := [], nodesByOwner := [], nodesByOperator := [], blocksUndo := [] }

/-- `CMasternodesView::IsEmpty` (masternodes.h:199-202). -/
def IsEmpty (s : CMasternodesView) : Bool :=
  s.allNodes.isEmpty && s.nodesByOwner.isEmpty &&
    s.nodesByOperator.isEmpty && s.blocksUndo.isEmpty

/-- The auth index selected by an `AuthIndex` value (masternodes.h:363). -/
def authIndexOf (s : CMasternodesView) : AuthIndex → List (Nat × Nat)
  | AuthIndex.ByOwner => s.nodesByOwner
  | AuthIndex.ByOperator => s.nodesByOperator

/-- Modelled from the spec: the body of the non-cache
`CMasternodesView::ExistMasternode(AuthIndex, CKeyID)` (declared at
masternodes.h:246-247) is not under `src/`.  Per §4.1 of the spec a stored
entry with a tombstone marker (null node id) yields not-found; the result
carries the `(auth key, node id)` pair the returned map iterator points to. -/
def ExistMasternodeAuth (s : CMasternodesView) (w : AuthIndex) (auth : Nat) :
    Option (Nat × Nat) :=
  match mapFind (s.authIndexOf w) auth with
  | none => none
  | some nodeId => if nodeId = 0 then none else some (auth, nodeId)

/-- Modelled from the spec: the body of the non-cache
`CMasternodesView::ExistMasternode(uint256)` (declared at masternodes.h:249)
is not under `src/`.  Per §4.1 of the spec a stored default-constructed
(tombstone) record yields not-found. -/
def ExistMasternodeID (s : CMasternodesView) (id : Nat) : Option CMasternode :=
  match mapFind s.allNodes id with
  | none => none
  | some mn => if mn = CMasternode.empty then none else some mn

/-- `CMasternodesView::GetMasternodes` (masternodes.h:237-240). -/
def GetMasternodes (s : CMasternodesView) : List (Nat × CMasternode) :=
  s.allNodes

/-- Modelled from the spec: the body of `CMasternodesView::ApplyCache`
(declared at masternodes.h:196) is not under `src/`.  Per §4.1 of the spec
it "merges every local overlay entry into the base (insert/overwrite/delete
as marked)": every overlay binding — tombstones included — overwrites the
base binding of the same key. -/
def ApplyCache (s cache : CMasternodesView) : CMasternodesView :=
  { allNodes := applyEntries s.allNodes cache.allNodes
    nodesByOwner := applyEntries s.nodesByOwner cache.nodesByOwner
    nodesByOperator := applyEntries s.nodesByOperator cache.nodesByOperator
    blocksUndo := applyEntries s.blocksUndo cache.blocksUndo }

/-- Modelled from the spec: the body of `CMasternodesView::Clear` (declared
at masternodes.h:197) is not under `src/`.  Per §4.1 of the spec flushing
"clears the local overlay". -/
def Clear (_ : CMasternodesView) : CMasternodesView := emptyView

end CMasternodesView

/-- Outcome of an operation that can hit `assert(...)`: either a value, or
a fatal assertion failure (process abort, no state survives). -/
inductive ExecResult (α : Type) : Type
  | ok (val : α)
  | assertFail
deriving DecidableEq, Repr

/-! ### Cache view (`CMasternodesViewCache`, masternodes.h:319-395)

A cache is modelled as its local overlay `c` paired with the state `base`
of the view beneath it. -/

namespace Cache

open CMasternodesView

/-- `CMasternodesViewCache::ExistMasternode(AuthIndex, CKeyID)`
(masternodes.h:360-374): miss in the local index falls through to the
base; a null node id in the local index is a tombstone yielding not-found;
any other hit is returned directly. -/
def ExistMasternodeAuth (c base : CMasternodesView) (w : AuthIndex)
    (auth : Nat) : Option (Nat × Nat) :=
  match mapFind (c.authIndexOf w) auth with
  | none => base.ExistMasternodeAuth w auth
  | some nodeId => if nodeId = 0 then none else some (auth, nodeId)

/-- `CMasternodesViewCache::ExistMasternode(uint256)` (masternodes.h:376-380):
miss falls through to the base; a stored default-constructed record is a
tombstone yielding a null pointer; any other hit is returned directly. -/
def ExistMasternodeID (c base : CMasternodesView) (id : Nat) :
    Option CMasternode :=
  match mapFind c.allNodes id with
  | none => base.ExistMasternodeID id
  | some mn => if mn ≠ CMasternode.empty then some mn else none

/-- `CMasternodesViewCache::GetMasternodes` (masternodes.h:338-344):
`CMasternodes result(allNodes); result.insert(baseNodes.begin(),
baseNodes.end())` — `std::map::insert` keeps existing (overlay) entries. -/
def GetMasternodes (c base : CMasternodesView) : List (Nat × CMasternode) :=
  insertRange c.allNodes base.GetMasternodes

/-- `CMasternodesViewCache::Flush` (masternodes.h:388-394):
`base->ApplyCache(this); Clear(); return true;`.  Returns the flag, the
new base state and the new (cleared) cache state. -/
def Flush (c base : CMasternodesView) :
    Bool × CMasternodesView × CMasternodesView :=
  (true, base.ApplyCache c, c.Clear)

/-- `CMasternodesView::IncrementMintedBy` (masternodes.h:215-224) executed
on a cache view (so the virtual `ExistMasternode` lookups resolve through
the overlay): a failed lookup in either step is `assert`;
`allNodes[nodeId] = *nodePtr; ++node.mintedBlocks` writes the record back
into the local overlay with the `uint32_t` counter bumped mod `2 ^ 32`. -/
def IncrementMintedBy (c base : CMasternodesView) (minter : Nat) :
    ExecResult CMasternodesView :=
  match ExistMasternodeAuth c base AuthIndex.ByOperator minter with
  | none => ExecResult.assertFail
  | some it =>
    match ExistMasternodeID c base it.2 with
    | none => ExecResult.assertFail
    | some node =>
      let bumped : CMasternode :=
        { node with mintedBlocks := (node.mintedBlocks + 1) % 2 ^ 32 }
      ExecResult.ok { c with allNodes := mapSet c.allNodes it.2 bumped }

/-- `CMasternodesView::DecrementMintedBy` (masternodes.h:226-235) executed
on a cache view: as `IncrementMintedBy` but `--node.mintedBlocks`, i.e. the
`uint32_t` counter wraps mod `2 ^ 32`. -/
def DecrementMintedBy (c base : CMasternodesView) (minter : Nat) :
    ExecResult CMasternodesView :=
  match ExistMasternodeAuth c base AuthIndex.ByOperator minter with
  | none => ExecResult.assertFail
  | some it =>
    match ExistMasternodeID c base it.2 with
    | none => ExecResult.assertFail
    | some node =>
      let bumped : CMasternode :=
        { node with mintedBlocks := (node.mintedBlocks + (2 ^ 32 - 1)) % 2 ^ 32 }
      ExecResult.ok { c with allNodes := mapSet c.allNodes it.2 bumped }

end Cache

/-- `CMasternodesViewHistory::Flush` (masternodes.h:406):
`bool Flush() override { assert(false); } // forbidden!!!` — every
invocation takes the fatal assertion path; no state is produced. -/
def CMasternodesViewHistory.Flush (_hist _base : CMasternodesView) :
    ExecResult (Bool × CMasternodesView × CMasternodesView) :=
  ExecResult.assertFail

/-- One write landing in a cache's local overlay (`m[k] = v` on one of the
four overlay maps); tombstones are writes of the null id / the
default-constructed record. -/
inductive CacheWrite : Type
  | writeNode (id : Nat) (mn : CMasternode)
  | writeOwner (auth : Nat) (id : Nat)
  | writeOperator (auth : Nat) (id : Nat)
  | writeUndo (height : Int) (undo : CMnTxsUndo)

/-- Apply one overlay write to a cache's local overlay. -/
def applyWrite (c : CMasternodesView) : CacheWrite → CMasternodesView
  | CacheWrite.writeNode id mn => { c with allNodes := mapSet c.allNodes id mn }
  | CacheWrite.writeOwner auth id =>
    { c with nodesByOwner := mapSet c.nodesByOwner auth id }
  | CacheWrite.writeOperator auth id =>
    { c with nodesByOperator := mapSet c.nodesByOperator auth id }
  | CacheWrite.writeUndo h u =>
    { c with blocksUndo := mapSet c.blocksUndo h u }

/-- The overlay a fresh cache holds after a sequence of writes. -/
def runWrites (ws : List CacheWrite) : CMasternodesView :=
  ws.foldl applyWrite CMasternodesView.emptyView

/-! ### Criminal detector (doubled-sign headers, spec §4.3) -/

/-- The observable content of a `CBlockHeader` relevant to double-sign
detection: the height, the operator key recovered from the header
signature, and the block hash (`GetHash()`), each embedded as `Nat`. -/
structure CBlockHeader : Type where
  height : Nat
  minterKey : Nat
  hashVal : Nat
deriving DecidableEq, Repr

/-- Modelled from the spec: the body of `IsDoubleSignRestricted(uint64_t,
uint64_t)` (declared at masternodes.h:417) is not under `src/`.  Per §4.3
two heights fall under the restriction when they are within the fixed
minimum proof interval (masternodes.h:28) of each other. -/
def IsDoubleSignRestricted (height1 height2 : Nat) : Bool :=
  max height1 height2 - min height1 height2 ≤ DOUBLE_SIGN_MINIMUM_PROOF_INTERVAL

/-- Modelled from the spec: the body of `CMasternodesView::IsDoubleSigned`
(declared at masternodes.h:275) is not under `src/`.  Per §4.3 two headers
are flagged only if they carry the same operator key, their hashes differ
and their heights are within the minimum proof interval; on success the
`minter` out-parameter receives the common key (returned here as
`some key`). -/
def IsDoubleSigned (one two : CBlockHeader) : Option Nat :=
  if IsDoubleSignRestricted one.height two.height
      && (one.minterKey == two.minterKey)
      && (one.hashVal != two.hashVal) then
    some one.minterKey
  else
    none

/-! ### Team rotation (spec §4.4) -/

/-- Modelled from the spec: eligibility of a candidate ("the pool of
active, non-banned validators", §4.4).  The height-dependent lifecycle
state machine of §4.2 is abstracted to the height-free core of
"active": neither resigned nor banned (sentinel heights still −1). -/
def isActiveNode (mn : CMasternode) : Bool :=
  mn.resignHeight < 0 && mn.banHeight < 0

/-- Modelled from the spec: the per-candidate selection priority, a
deterministic stand-in for the hash of (node id, stake modifier) — §4.4
requires only that it is a fixed function of the two with "no hidden
randomness". -/
def nodeSelectionScore (id seed : Nat) : Nat :=
  (id + 1) * (2 * seed + 1) % 2 ^ 256

/-- Priority order on scored candidates: by score, ties broken by the
total order on validator ids (§4.4: "Any tie-break must be defined by a
total order over validator ids"). -/
def scoreLt (a b : (Nat × Nat) × Nat) : Bool :=
  a.1.1 < b.1.1 || (a.1.1 == b.1.1 && a.1.2 < b.1.2)

/-- Insertion step of a deterministic insertion sort by `scoreLt`. -/
def insertByScore (x : (Nat × Nat) × Nat) :
    List ((Nat × Nat) × Nat) → List ((Nat × Nat) × Nat)
  | [] => [x]
  | y :: t => if scoreLt x y then x :: y :: t else y :: insertByScore x t

/-- `std::set<CKeyID>::insert` — sorted, duplicate-free insert
(`CTeam = std::set<CKeyID>`, masternodes.h:174). -/
def setInsert : List Nat → Nat → List Nat
  | [], x => [x]
  | y :: t, x =>
    if x < y then x :: y :: t else if x = y then y :: t else y :: setInsert t x

/-- Modelled from the spec: the body of `CMasternodesView::CalcNextTeam`
(declared at masternodes.h:272) is not under `src/`.  Per §4.4 it is a
pure function of the stake-modifier seed and the candidate pool: score
every active candidate, order by score with the id total order as
tie-break, and collect the operator keys of the best `teamSize` candidates
into the team set. -/
def CalcNextTeam (seed teamSize : Nat) (pool : List (Nat × CMasternode)) :
    List Nat :=
  let cands := pool.filter (fun p => isActiveNode p.2)
  let scored := cands.map
    (fun p => ((nodeSelectionScore p.1 seed, p.1), p.2.operatorAuthAddress))
  let ordered := scored.foldr insertByScore []
  ((ordered.take teamSize).map (fun q => q.2)).foldl setInsert []

/-- `std::map` built by inserting a list of keyed records in the given
order (`std::map::insert` keeps the earlier binding on a duplicate key). -/
def buildPool (l : List (Nat × CMasternode)) : List (Nat × CMasternode) :=
  insertRange [] l

/-! ### Custom transaction dispatch (spec §4.5, §6) -/

/-- `DfTxMarker = {'D','f','T','x'}` (masternodes.h:26). -/
def DfTxMarker : List Nat := [68, 102, 84, 120]

/-- Whether an output payload starts with the 4-byte `DfTx` marker. -/
def startsWithMarker (o : List Nat) : Bool :=
  match o with
  | 68 :: 102 :: 84 :: 120 :: _ => true
  | _ => false

/-- Modelled from the spec: the body of `GuessMasternodeTxType` (declared
at masternodes.h:414-415) is not under `src/`.  Per §4.5/§6 it scans the
transaction outputs (each embedded as its payload byte list) for the
4-byte marker followed by a one-byte tag and the serialized metadata;
unmarked or truncated transactions classify as `None` with empty metadata,
and the tag byte is decoded by the total `Unserialize` decoder
(masternodes.h:43-50), so unrecognized tags also yield `None`, never an
error. -/
def GuessMasternodeTxType (outputs : List (List Nat)) :
    MasternodesTxType × List Nat :=
  match outputs.find? startsWithMarker with
  | none => (MasternodesTxType.None, [])
  | some o =>
    match o.drop 4 with
    | [] => (MasternodesTxType.None, [])
    | ch :: rest => (unserializeMasternodesTxType ch, rest)

/-! ### `destroytoken` RPC guard (mn_rpc.cpp:670-751) -/

/-- The token fields `destroytoken` inspects (`CTokenImplementation`,
declared outside the available sources; fields named as used at
mn_rpc.cpp:717-731): creation/destruction tx hashes as `Nat` (0 = null
`uint256{}`) and the destruction height. -/
structure CTokenImplementation : Type where
  creationTx : Nat
  destructionTx : Nat
  destructionHeight : Int
deriving DecidableEq, Repr

/-- The JSON-RPC errors `destroytoken` can throw (mn_rpc.cpp:714-732),
all carrying `RPC_INVALID_PARAMETER`. -/
inductive DestroyTokenErr : Type
  | tokenNotFound
  | stableCoin
  | alreadyDestroyed
  | cantExtractDest
deriving DecidableEq, Repr

/-- The guard-and-build core of the `destroytoken` RPC
(mn_rpc.cpp:706-751), abstracted over the reserved-id threshold
`CTokensView::DCT_ID_START` (its numeric value is declared outside the
available sources): look up the token by symbol; throw if it does not
exist, if its numeric id is below the threshold ("stable coin"), if its
`destructionTx` is already set, or if the owner (collateral) destination
cannot be extracted from the wallet; otherwise build the raw destruction
transaction, whose metadata payload carries the token's `creationTx`.
The function is pure — a thrown error produces no transaction and leaves
every ledger view untouched. -/
def destroytoken (dctIdStart : Nat)
    (lookup : Option (Nat × CTokenImplementation))
    (ownerDest : Option Nat) : Except DestroyTokenErr Nat :=
  match lookup with
  | none => Except.error DestroyTokenErr.tokenNotFound
  | some (id, token) =>
    if id < dctIdStart then Except.error DestroyTokenErr.stableCoin
    else if token.destructionTx ≠ 0 then
      Except.error DestroyTokenErr.alreadyDestroyed
    else
      match ownerDest with
      | none => Except.error DestroyTokenErr.cantExtractDest
      | some _ => Except.ok token.creationTx

/-! ### Invariants and auxiliary lemmas -/

/-- All four tables of a view are well-formed `std::map`s. -/
def ViewSorted (s : CMasternodesView) : Prop :=
  SortedKeys s.allNodes ∧ SortedKeys s.nodesByOwner ∧
    SortedKeys s.nodesByOperator ∧ SortedKeys s.blocksUndo

theorem emptyView_sorted : ViewSorted CMasternodesView.emptyView := by
  refine ⟨?_, ?_, ?_, ?_⟩ <;> simp [CMasternodesView.emptyView, SortedKeys]

theorem applyWrite_sorted {c : CMasternodesView} (hc : ViewSorted c)
    (w : CacheWrite) : ViewSorted (applyWrite c w) := by
  obtain ⟨h1, h2, h3, h4⟩ := hc
  cases w with
  | writeNode id mn => exact ⟨mapSet_sorted h1 id mn, h2, h3, h4⟩
  | writeOwner auth id => exact ⟨h1, mapSet_sorted h2 auth id, h3, h4⟩
  | writeOperator auth id => exact ⟨h1, h2, mapSet_sorted h3 auth id, h4⟩
  | writeUndo h u => exact ⟨h1, h2, h3, mapSet_sorted h4 h u⟩

theorem foldl_applyWrite_sorted :
    ∀ (ws : List CacheWrite) (c : CMasternodesView), ViewSorted c →
      ViewSorted (ws.foldl applyWrite c) := by
  intro ws
  induction ws with
  | nil => intro c hc; exact hc
  | cons w t ih => intro c hc; exact ih _ (applyWrite_sorted hc w)

theorem runWrites_sorted (ws : List CacheWrite) : ViewSorted (runWrites ws) :=
  foldl_applyWrite_sorted ws _ emptyView_sorted

theorem insertRange_sorted {κ α : Type} [LinearOrder κ] :
    ∀ (o : List (κ × α)) {m : List (κ × α)}, SortedKeys m →
      SortedKeys (insertRange m o) := by
  intro o
  induction o with
  | nil => intro m hm; exact hm
  | cons p t ih =>
    intro m hm
    exact ih (mapInsertKeep_sorted hm p.1 p.2)

theorem SortedKeys.tail {κ α : Type} [LinearOrder κ]
    {p : κ × α} {t : List (κ × α)} (h : SortedKeys (p :: t)) : SortedKeys t :=
  (List.pairwise_cons.mp h).2

/-- Two well-formed maps with identical point reads are identical. -/
theorem sorted_ext {κ α : Type} [LinearOrder κ] :
    ∀ {m1 m2 : List (κ × α)}, SortedKeys m1 → SortedKeys m2 →
      (∀ k, mapFind m1 k = mapFind m2 k) → m1 = m2 := by
  intro m1
  induction m1 with
  | nil =>
    intro m2 _ h2 hf
    cases m2 with
    | nil => rfl
    | cons p t =>
      obtain ⟨k2, v2⟩ := p
      have he := hf k2
      simp [mapFind] at he
  | cons p t1 ih =>
    obtain ⟨k1, v1⟩ := p
    intro m2 h1 h2 hf
    cases m2 with
    | nil =>
      have he := hf k1
      simp [mapFind] at he
    | cons q t2 =>
      obtain ⟨k2, v2⟩ := q
      have hk : k1 = k2 := by
        rcases lt_trichotomy k1 k2 with h | h | h
        · have e1 := hf k1
          rw [mapFind_eq_none_of_sorted_head h2 h] at e1
          simp [mapFind] at e1
        · exact h
        · have e1 := hf k2
          rw [mapFind_eq_none_of_sorted_head h1 h] at e1
          simp [mapFind] at e1
      subst hk
      have hv : v1 = v2 := by
        have he := hf k1
        simp [mapFind] at he
        exact he
      subst hv
      congr 1
      refine ih h1.tail h2.tail ?_
      intro k
      by_cases hk1 : k = k1
      · subst hk1
        rw [mapFind_head_key_tail_none h1, mapFind_head_key_tail_none h2]
      · have he := hf k
        simpa [mapFind, hk1] using he

theorem mapFind_eq_some_iff_mem {κ α : Type} [DecidableEq κ] :
    ∀ {l : List (κ × α)}, (l.map Prod.fst).Nodup → ∀ {k : κ} {v : α},
      (mapFind l k = some v ↔ (k, v) ∈ l) := by
  intro l
  induction l with
  | nil => intro _ k v; simp [mapFind]
  | cons p t ih =>
    obtain ⟨k0, v0⟩ := p
    intro hnd k v
    rw [List.map_cons, List.nodup_cons] at hnd
    obtain ⟨hk0, hndt⟩ := hnd
    by_cases h : k = k0
    · subst h
      have hnt : (k, v) ∉ t := by
        intro hm
        exact hk0 (List.mem_map.mpr ⟨(k, v), hm, rfl⟩)
      simp [mapFind, hnt]
      constructor
      · intro hv; exact hv.symm
      · intro hv; exact hv.symm
    · have hne : (k, v) ≠ (k0, v0) := by
        intro he; exact h (congrArg Prod.fst he)
      simp [mapFind, h, hne]
      exact ih hndt

theorem mapFind_perm {κ α : Type} [DecidableEq κ] {l1 l2 : List (κ × α)}
    (hp : l1.Perm l2) (hnd : (l1.map Prod.fst).Nodup) (k : κ) :
    mapFind l1 k = mapFind l2 k := by
  have hnd2 : (l2.map Prod.fst).Nodup := ((hp.map Prod.fst).nodup_iff).mp hnd
  cases h1 : mapFind l1 k with
  | some v =>
    exact ((mapFind_eq_some_iff_mem hnd2).mpr
      (hp.mem_iff.mp ((mapFind_eq_some_iff_mem hnd).mp h1))).symm
  | none =>
    cases h2 : mapFind l2 k with
    | none => rfl
    | some v =>
      have hm : (k, v) ∈ l1 :=
        hp.mem_iff.mpr ((mapFind_eq_some_iff_mem hnd2).mp h2)
      have he := (mapFind_eq_some_iff_mem hnd).mpr hm
      rw [h1] at he
      exact absurd he (by simp)

theorem buildPool_sorted (l : List (Nat × CMasternode)) :
    SortedKeys (buildPool l) :=
  insertRange_sorted l (by simp [SortedKeys])

theorem buildPool_find (l : List (Nat × CMasternode)) (k : Nat) :
    mapFind (buildPool l) k = mapFind l k := by
  rw [buildPool, insertRange_find (by simp [SortedKeys])]
  rfl

theorem buildPool_perm {l1 l2 : List (Nat × CMasternode)} (hp : l1.Perm l2)
    (hnd : (l1.map Prod.fst).Nodup) : buildPool l1 = buildPool l2 :=
  sorted_ext (buildPool_sorted l1) (buildPool_sorted l2)
    (fun k => by rw [buildPool_find, buildPool_find, mapFind_perm hp hnd])

theorem existAuth_after_apply (base : CMasternodesView) {c : CMasternodesView}
    (hc : ViewSorted c) (w : AuthIndex) (auth : Nat) :
    (base.ApplyCache c).ExistMasternodeAuth w auth
      = Cache.ExistMasternodeAuth c base w auth := by
  have hfind : mapFind ((base.ApplyCache c).authIndexOf w) auth
      = optOr (mapFind (c.authIndexOf w) auth)
          (mapFind (base.authIndexOf w) auth) := by
    cases w with
    | ByOwner => exact applyEntries_find hc.2.1 base.nodesByOwner auth
    | ByOperator => exact applyEntries_find hc.2.2.1 base.nodesByOperator auth
  rw [CMasternodesView.ExistMasternodeAuth, Cache.ExistMasternodeAuth, hfind]
  cases hf : mapFind (c.authIndexOf w) auth with
  | none => rfl
  | some id => rfl

theorem existID_after_apply (base : CMasternodesView) {c : CMasternodesView}
    (hc : ViewSorted c) (id : Nat) :
    (base.ApplyCache c).ExistMasternodeID id
      = Cache.ExistMasternodeID c base id := by
  have hfind : mapFind ((base.ApplyCache c).allNodes) id
      = optOr (mapFind c.allNodes id) (mapFind base.allNodes id) :=
    applyEntries_find hc.1 base.allNodes id
  rw [CMasternodesView.ExistMasternodeID, Cache.ExistMasternodeID, hfind]
  cases hf : mapFind c.allNodes id with
  | none => rfl
  | some mn =>
    show (if mn = CMasternode.empty then none else some mn)
      = if mn ≠ CMasternode.empty then some mn else none
    by_cases h : mn = CMasternode.empty <;> simp [h]

theorem applyCache_emptyView (s : CMasternodesView) :
    s.ApplyCache CMasternodesView.emptyView = s := rfl

/-- Claim C1: for every base view and every sequence of writes applied to
a fresh cache over it, one `Flush` merges every local-overlay entry into
the base and clears the overlay: afterwards every read from the base
(`ExistMasternode` by owner/operator key and by node id) equals the
cache's pre-flush read, the cache's `IsEmpty()` holds, and a second
`Flush` of the already-cleared cache leaves the base unchanged. -/
theorem flush_overlay_correctness (base : CMasternodesView)
    (ws : List CacheWrite) :
    (∀ w auth, ((Cache.Flush (runWrites ws) base).2.1).ExistMasternodeAuth w auth
        = Cache.ExistMasternodeAuth (runWrites ws) base w auth)
    ∧ (∀ id, ((Cache.Flush (runWrites ws) base).2.1).ExistMasternodeID id
        = Cache.ExistMasternodeID (runWrites ws) base id)
    ∧ ((Cache.Flush (runWrites ws) base).2.2).IsEmpty = true
    ∧ Cache.Flush (Cache.Flush (runWrites ws) base).2.2
        (Cache.Flush (runWrites ws) base).2.1
      = (true, (Cache.Flush (runWrites ws) base).2.1,
          CMasternodesView.emptyView) := by
  have hc : ViewSorted (runWrites ws) := runWrites_sorted ws
  refine ⟨?_, ?_, ?_, ?_⟩
  · intro w auth
    exact existAuth_after_apply base hc w auth
  · intro id
    exact existID_after_apply base hc id
  · rfl
  · show Cache.Flush (CMasternodesView.Clear (runWrites ws)) _ = _
    rw [CMasternodesView.Clear, Cache.Flush, applyCache_emptyView]
    rfl

/-- Claim C2: a cache read (`ExistMasternode` by owner/operator key or by
node id) whose key is absent from the local overlay returns the base
view's result; a local tombstone entry (null node id in the auth index, a
default-constructed `CMasternode` in the node map) yields not-found
without consulting the base (the result is `none` for every base); any
other local entry is returned directly. -/
theorem cache_read_fallthrough (c base : CMasternodesView) (w : AuthIndex)
    (auth id nodeId : Nat) (mn : CMasternode) :
    (mapFind (c.authIndexOf w) auth = none →
      Cache.ExistMasternodeAuth c base w auth = base.ExistMasternodeAuth w auth)
    ∧ (mapFind (c.authIndexOf w) auth = some 0 →
      ∀ base2, Cache.ExistMasternodeAuth c base2 w auth = none)
    ∧ (mapFind (c.authIndexOf w) auth = some nodeId → nodeId ≠ 0 →
      Cache.ExistMasternodeAuth c base w auth = some (auth, nodeId))
    ∧ (mapFind c.allNodes id = none →
      Cache.ExistMasternodeID c base id = base.ExistMasternodeID id)
    ∧ (mapFind c.allNodes id = some CMasternode.empty →
      ∀ base2, Cache.ExistMasternodeID c base2 id = none)
    ∧ (mapFind c.allNodes id = some mn → mn ≠ CMasternode.empty →
      Cache.ExistMasternodeID c base id = some mn) := by
  refine ⟨?_, ?_, ?_, ?_, ?_, ?_⟩
  · intro h; simp [Cache.ExistMasternodeAuth, h]
  · intro h base2; simp [Cache.ExistMasternodeAuth, h]
  · intro h hne; simp [Cache.ExistMasternodeAuth, h, hne]
  · intro h; simp [Cache.ExistMasternodeID, h]
  · intro h base2; simp [Cache.ExistMasternodeID, h]
  · intro h hne; simp [Cache.ExistMasternodeID, h, hne]

/-- A tiny concrete overlay for the C2 witness: owner key 1 is a
tombstone, owner key 2 points at node 7; node 5 holds the tombstone
record, node 6 holds a real record. -/
def c2WitnessCache : CMasternodesView :=
  { allNodes :=
      [(5, CMasternode.empty),
       (6, { CMasternode.empty with mintedBlocks := 1 })]
    nodesByOwner := [(1, 0), (2, 7)]
    nodesByOperator := []
    blocksUndo := [] }

theorem cache_read_fallthrough_witness :
    Cache.ExistMasternodeAuth c2WitnessCache CMasternodesView.emptyView
        AuthIndex.ByOwner 3
      = CMasternodesView.emptyView.ExistMasternodeAuth AuthIndex.ByOwner 3
    ∧ Cache.ExistMasternodeAuth c2WitnessCache CMasternodesView.emptyView
        AuthIndex.ByOwner 1 = none
    ∧ Cache.ExistMasternodeAuth c2WitnessCache CMasternodesView.emptyView
        AuthIndex.ByOwner 2 = some (2, 7)
    ∧ Cache.ExistMasternodeID c2WitnessCache CMasternodesView.emptyView 9
      = CMasternodesView.emptyView.ExistMasternodeID 9
    ∧ Cache.ExistMasternodeID c2WitnessCache CMasternodesView.emptyView 5 = none
    ∧ Cache.ExistMasternodeID c2WitnessCache CMasternodesView.emptyView 6
      = some ({ CMasternode.empty with mintedBlocks := 1 }) :=
  ⟨(cache_read_fallthrough c2WitnessCache CMasternodesView.emptyView
      AuthIndex.ByOwner 3 9 7 CMasternode.empty).1 (by decide),
   (cache_read_fallthrough c2WitnessCache CMasternodesView.emptyView
      AuthIndex.ByOwner 1 9 7 CMasternode.empty).2.1 (by decide)
      CMasternodesView.emptyView,
   (cache_read_fallthrough c2WitnessCache CMasternodesView.emptyView
      AuthIndex.ByOwner 2 9 7 CMasternode.empty).2.2.1 (by decide) (by decide),
   (cache_read_fallthrough c2WitnessCache CMasternodesView.emptyView
      AuthIndex.ByOwner 3 9 7 CMasternode.empty).2.2.2.1 (by decide),
   (cache_read_fallthrough c2WitnessCache CMasternodesView.emptyView
      AuthIndex.ByOwner 3 5 7 CMasternode.empty).2.2.2.2.1 (by decide)
      CMasternodesView.emptyView,
   (cache_read_fallthrough c2WitnessCache CMasternodesView.emptyView
      AuthIndex.ByOwner 3 6 7
      ({ CMasternode.empty with mintedBlocks := 1 })).2.2.2.2.2 (by decide)
      (by decide)⟩

/-- Claim C3: `IsDoubleSigned(header1, header2, minter)` flags a
double-sign exactly when the two headers carry the same operator key,
their hashes differ, and their heights are within the fixed
`DOUBLE_SIGN_MINIMUM_PROOF_INTERVAL = 100` of each other; same-hash
header pairs are never flagged, pairs outside the interval are never
flagged, and a flagged pair reports the common operator key. -/
theorem double_sign_detection (one two : CBlockHeader) :
    DOUBLE_SIGN_MINIMUM_PROOF_INTERVAL = 100
    ∧ ((IsDoubleSigned one two).isSome = true ↔
        (one.minterKey = two.minterKey ∧ one.hashVal ≠ two.hashVal ∧
          max one.height two.height - min one.height two.height ≤ 100))
    ∧ (one.hashVal = two.hashVal → IsDoubleSigned one two = none)
    ∧ (100 < max one.height two.height - min one.height two.height →
        IsDoubleSigned one two = none)
    ∧ (∀ minter, IsDoubleSigned one two = some minter →
        minter = one.minterKey ∧ minter = two.minterKey) := by
  refine ⟨rfl, ?_, ?_, ?_, ?_⟩
  · simp only [IsDoubleSigned, IsDoubleSignRestricted,
      DOUBLE_SIGN_MINIMUM_PROOF_INTERVAL]
    by_cases hr : max one.height two.height - min one.height two.height ≤ 100 <;>
      by_cases hm : one.minterKey = two.minterKey <;>
      by_cases hh : one.hashVal = two.hashVal <;>
      simp [hr, hm, hh]
  · intro h
    simp [IsDoubleSigned, h]
  · intro h
    have hr : ¬ (max one.height two.height - min one.height two.height
        ≤ DOUBLE_SIGN_MINIMUM_PROOF_INTERVAL) := by
      simp only [DOUBLE_SIGN_MINIMUM_PROOF_INTERVAL]; omega
    simp [IsDoubleSigned, IsDoubleSignRestricted, hr]
  · intro minter h
    rw [IsDoubleSigned] at h
    by_cases hcond : (IsDoubleSignRestricted one.height two.height
        && (one.minterKey == two.minterKey)
        && (one.hashVal != two.hashVal)) = true
    · rw [if_pos hcond] at h
      have hmk : one.minterKey = two.minterKey := by
        simp only [Bool.and_eq_true, beq_iff_eq] at hcond
        exact hcond.1.2
      cases h
      exact ⟨rfl, hmk⟩
    · rw [if_neg hcond] at h
      cases h

theorem double_sign_detection_witness :
    IsDoubleSigned ⟨10, 42, 100⟩ ⟨20, 42, 200⟩ = some 42
    ∧ IsDoubleSigned ⟨10, 42, 100⟩ ⟨20, 42, 100⟩ = none
    ∧ IsDoubleSigned ⟨10, 42, 100⟩ ⟨500, 42, 200⟩ = none
    ∧ (42 = (⟨10, 42, 100⟩ : CBlockHeader).minterKey
        ∧ 42 = (⟨20, 42, 200⟩ : CBlockHeader).minterKey) := by
  refine ⟨?_, ?_, ?_, ?_⟩
  · have h := (double_sign_detection ⟨10, 42, 100⟩ ⟨20, 42, 200⟩).2.1
    cases hv : IsDoubleSigned ⟨10, 42, 100⟩ ⟨20, 42, 200⟩ with
    | none =>
      have := h.mpr ⟨by decide, by decide, by decide⟩
      rw [hv] at this
      cases this
    | some v =>
      have hm := (double_sign_detection ⟨10, 42, 100⟩ ⟨20, 42, 200⟩).2.2.2.2 v hv
      simp [hm.1]
  · exact (double_sign_detection ⟨10, 42, 100⟩ ⟨20, 42, 100⟩).2.2.1 (by decide)
  · exact (double_sign_detection ⟨10, 42, 100⟩ ⟨500, 42, 200⟩).2.2.2.1 (by decide)
  · exact ⟨by decide, by decide⟩

/-- Claim C4: `CalcNextTeam(stakeModifier, candidatePool)` is a pure,
deterministic function of its arguments: for any seed, any team size and
any two candidate pools built by inserting the same records in permuted
order, the computed team sets are identical (no wall-clock or node-local
randomness enters the computation). -/
theorem calc_next_team_deterministic (seed teamSize : Nat)
    (l1 l2 : List (Nat × CMasternode)) (hp : l1.Perm l2)
    (hnd : (l1.map Prod.fst).Nodup) :
    CalcNextTeam seed teamSize (buildPool l1)
      = CalcNextTeam seed teamSize (buildPool l2) := by
  rw [buildPool_perm hp hnd]

/-- Two active candidate records used by the C4 witness. -/
def c4NodeA : CMasternode :=
  { CMasternode.empty with operatorAuthAddress := 11, mintedBlocks := 3 }

/-- Second candidate record of the C4 witness. -/
def c4NodeB : CMasternode :=
  { CMasternode.empty with operatorAuthAddress := 22, mintedBlocks := 5 }

theorem calc_next_team_deterministic_witness :
    ([(1, c4NodeA), (2, c4NodeB)] : List (Nat × CMasternode)).Perm
        [(2, c4NodeB), (1, c4NodeA)]
    ∧ (([(1, c4NodeA), (2, c4NodeB)] : List (Nat × CMasternode)).map
        Prod.fst).Nodup
    ∧ CalcNextTeam 7 2 (buildPool [(1, c4NodeA), (2, c4NodeB)])
      = CalcNextTeam 7 2 (buildPool [(2, c4NodeB), (1, c4NodeA)]) :=
  ⟨List.Perm.swap (2, c4NodeB) (1, c4NodeA) [], by decide,
   calc_next_team_deterministic 7 2 _ _
     (List.Perm.swap (2, c4NodeB) (1, c4NodeA) []) (by decide)⟩

/-- Claim C5: invoking `Flush` on a `CMasternodesViewHistory` view takes
the fatal assertion path on every invocation: for every history overlay
and base state the outcome is the assertion failure, so no merge into the
base and no state mutation ever happens. -/
theorem history_flush_forbidden (hist base : CMasternodesView) :
    CMasternodesViewHistory.Flush hist base = ExecResult.assertFail := rfl

/-- The record with its `uint32_t` minted-blocks counter incremented
(wrapping mod `2 ^ 32`), every other field untouched. -/
def bumpInc (node : CMasternode) : CMasternode :=
  { node with mintedBlocks := (node.mintedBlocks + 1) % 2 ^ 32 }

/-- The record with its `uint32_t` minted-blocks counter decremented
(wrapping mod `2 ^ 32`), every other field untouched. -/
def bumpDec (node : CMasternode) : CMasternode :=
  { node with mintedBlocks := (node.mintedBlocks + (2 ^ 32 - 1)) % 2 ^ 32 }

/-- Claim C6: `IncrementMintedBy`/`DecrementMintedBy` look the masternode
up by operator key and hit the fatal assertion when either the operator
index has no entry or the indexed node is missing from the primary table;
when the operator key resolves to a registered masternode, the assertion
branches are not taken and exactly that node's minted-blocks counter is
stepped by one (mod `2 ^ 32`), every other node and every other field
(auth indices, undo log, the node's remaining fields) unchanged. -/
theorem minted_by_lookup_and_update (c base : CMasternodesView)
    (minter nodeId : Nat) (node : CMasternode) :
    (Cache.ExistMasternodeAuth c base AuthIndex.ByOperator minter = none →
      Cache.IncrementMintedBy c base minter = ExecResult.assertFail
      ∧ Cache.DecrementMintedBy c base minter = ExecResult.assertFail)
    ∧ (Cache.ExistMasternodeAuth c base AuthIndex.ByOperator minter
          = some (minter, nodeId) →
        Cache.ExistMasternodeID c base nodeId = none →
        Cache.IncrementMintedBy c base minter = ExecResult.assertFail
        ∧ Cache.DecrementMintedBy c base minter = ExecResult.assertFail)
    ∧ (Cache.ExistMasternodeAuth c base AuthIndex.ByOperator minter
          = some (minter, nodeId) →
        Cache.ExistMasternodeID c base nodeId = some node →
        Cache.IncrementMintedBy c base minter
          = ExecResult.ok
              { c with allNodes := mapSet c.allNodes nodeId (bumpInc node) }
        ∧ Cache.DecrementMintedBy c base minter
          = ExecResult.ok
              { c with allNodes := mapSet c.allNodes nodeId (bumpDec node) }
        ∧ mapFind (mapSet c.allNodes nodeId (bumpInc node)) nodeId
          = some (bumpInc node)
        ∧ (∀ other, other ≠ nodeId →
            mapFind (mapSet c.allNodes nodeId (bumpInc node)) other
              = mapFind c.allNodes other)) := by
  refine ⟨?_, ?_, ?_⟩
  · intro h
    constructor
    · simp [Cache.IncrementMintedBy, h]
    · simp [Cache.DecrementMintedBy, h]
  · intro h1 h2
    constructor
    · simp [Cache.IncrementMintedBy, h1, h2]
    · simp [Cache.DecrementMintedBy, h1, h2]
  · intro h1 h2
    refine ⟨?_, ?_, ?_, ?_⟩
    · simp [Cache.IncrementMintedBy, h1, h2, bumpInc]
    · simp [Cache.DecrementMintedBy, h1, h2, bumpDec]
    · rw [mapFind_mapSet]; simp
    · intro other hne
      rw [mapFind_mapSet, if_neg hne]

/-- The registered masternode of the C6/C10 witnesses: node id 5,
operator key 3. -/
def c6Node : CMasternode :=
  { CMasternode.empty with mintedBlocks := 10, operatorAuthAddress := 3 }

/-- The witness cache overlay: operator index `3 -> 5`, node table
`5 -> c6Node`. -/
def c6Cache : CMasternodesView :=
  { allNodes := [(5, c6Node)]
    nodesByOwner := []
    nodesByOperator := [(3, 5)]
    blocksUndo := [] }

theorem minted_by_lookup_and_update_witness :
    Cache.IncrementMintedBy c6Cache CMasternodesView.emptyView 3
      = ExecResult.ok
          { c6Cache with allNodes := mapSet c6Cache.allNodes 5 (bumpInc c6Node) }
    ∧ Cache.DecrementMintedBy c6Cache CMasternodesView.emptyView 3
      = ExecResult.ok
          { c6Cache with allNodes := mapSet c6Cache.allNodes 5 (bumpDec c6Node) }
    ∧ Cache.IncrementMintedBy c6Cache CMasternodesView.emptyView 4
      = ExecResult.assertFail
    ∧ mapFind (mapSet c6Cache.allNodes 5 (bumpInc c6Node)) 6
      = mapFind c6Cache.allNodes 6 :=
  ⟨((minted_by_lookup_and_update c6Cache CMasternodesView.emptyView 3 5
      c6Node).2.2 (by decide) (by decide)).1,
   ((minted_by_lookup_and_update c6Cache CMasternodesView.emptyView 3 5
      c6Node).2.2 (by decide) (by decide)).2.1,
   ((minted_by_lookup_and_update c6Cache CMasternodesView.emptyView 4 5
      c6Node).1 (by decide)).1,
   ((minted_by_lookup_and_update c6Cache CMasternodesView.emptyView 3 5
      c6Node).2.2 (by decide) (by decide)).2.2.2 6 (by decide)⟩

/-- Claim C7: enumeration through the cache's `GetMasternodes()` resolves
every node id with overlay-wins-over-base resolution: an id bound in the
local overlay appears with the overlay's record (whatever the base holds),
and an id absent from the overlay appears exactly as the base enumerates
it. -/
theorem get_masternodes_overlay_wins (c base : CMasternodesView)
    (hc : SortedKeys c.allNodes) (id : Nat) (mn : CMasternode) :
    (mapFind c.allNodes id = some mn →
      mapFind (Cache.GetMasternodes c base) id = some mn)
    ∧ (mapFind c.allNodes id = none →
      mapFind (Cache.GetMasternodes c base) id = mapFind base.allNodes id) := by
  constructor
  · intro h
    rw [Cache.GetMasternodes, insertRange_find hc, h]
    rfl
  · intro h
    rw [Cache.GetMasternodes, insertRange_find hc, h]
    rfl

/-- The C7 witness overlay record for node id 1. -/
def c7Over : CMasternode := { CMasternode.empty with mintedBlocks := 100 }

/-- The C7 witness base records for node ids 1 and 2. -/
def c7Base : CMasternode := { CMasternode.empty with mintedBlocks := 200 }

/-- The C7 witness base view holding nodes 1 and 2. -/
def c7BaseView : CMasternodesView :=
  { allNodes := [(1, c7Base), (2, c7Base)]
    nodesByOwner := []
    nodesByOperator := []
    blocksUndo := [] }

/-- The C7 witness cache overlay holding only node 1. -/
def c7CacheView : CMasternodesView :=
  { allNodes := [(1, c7Over)]
    nodesByOwner := []
    nodesByOperator := []
    blocksUndo := [] }

theorem get_masternodes_overlay_wins_witness :
    mapFind (Cache.GetMasternodes c7CacheView c7BaseView) 1 = some c7Over
    ∧ mapFind (Cache.GetMasternodes c7CacheView c7BaseView) 2
      = mapFind c7BaseView.allNodes 2 :=
  ⟨(get_masternodes_overlay_wins c7CacheView c7BaseView (by decide) 1
      c7Over).1 (by decide),
   (get_masternodes_overlay_wins c7CacheView c7BaseView (by decide) 2
      c7Over).2 (by decide)⟩

/-- Claim C8: the `MasternodesTxType` tag-byte decoder is total and never
errors: byte `'C'` (67) decodes to `CreateMasternode`, `'R'` (82) to
`ResignMasternode`, every other byte to `None`; consequently
`GuessMasternodeTxType` classifies an unmarked transaction, and a marked
transaction carrying an unrecognized tag byte, as `None` instead of
throwing. -/
theorem tx_type_decode_total (ch : Nat) (outs : List (List Nat))
    (o rest : List Nat) :
    unserializeMasternodesTxType 67 = MasternodesTxType.CreateMasternode
    ∧ unserializeMasternodesTxType 82 = MasternodesTxType.ResignMasternode
    ∧ (ch ≠ 67 → ch ≠ 82 →
        unserializeMasternodesTxType ch = MasternodesTxType.None)
    ∧ (outs.find? startsWithMarker = none →
        GuessMasternodeTxType outs = (MasternodesTxType.None, []))
    ∧ (outs.find? startsWithMarker = some o → o.drop 4 = ch :: rest →
        ch ≠ 67 → ch ≠ 82 →
        GuessMasternodeTxType outs = (MasternodesTxType.None, rest)) := by
  refine ⟨rfl, rfl, ?_, ?_, ?_⟩
  · intro h1 h2
    simp [unserializeMasternodesTxType, h1, h2]
  · intro h
    simp [GuessMasternodeTxType, h]
  · intro h1 h2 h3 h4
    simp [GuessMasternodeTxType, h1, h2, unserializeMasternodesTxType, h3, h4]

theorem tx_type_decode_total_witness :
    unserializeMasternodesTxType 99 = MasternodesTxType.None
    ∧ GuessMasternodeTxType [[1, 2], [3]] = (MasternodesTxType.None, [])
    ∧ GuessMasternodeTxType [[1, 2], [68, 102, 84, 120, 99, 7]]
      = (MasternodesTxType.None, [7]) :=
  ⟨(tx_type_decode_total 99 [] [] []).2.2.1 (by decide) (by decide),
   (tx_type_decode_total 99 [[1, 2], [3]] [] []).2.2.2.1 (by decide),
   (tx_type_decode_total 99 [[1, 2], [68, 102, 84, 120, 99, 7]]
      [68, 102, 84, 120, 99, 7] [7]).2.2.2.2 (by decide) (by decide)
      (by decide) (by decide)⟩

/-- Claim C9: `destroytoken` rejects with an explicit error — producing no
destruction transaction, and touching no ledger state (the guard is a pure
function of its inputs) — every token whose numeric id lies below the
reserved `DCT_ID_START` threshold ("stable coin") and every token whose
`destructionTx` is already set (already destroyed). -/
theorem destroytoken_rejects_reserved_and_destroyed (dctIdStart id : Nat)
    (token : CTokenImplementation) (ownerDest : Option Nat) :
    (id < dctIdStart →
      destroytoken dctIdStart (some (id, token)) ownerDest
        = Except.error DestroyTokenErr.stableCoin)
    ∧ (¬ id < dctIdStart → token.destructionTx ≠ 0 →
      destroytoken dctIdStart (some (id, token)) ownerDest
        = Except.error DestroyTokenErr.alreadyDestroyed)
    ∧ ((id < dctIdStart ∨ token.destructionTx ≠ 0) →
      ∀ tx, destroytoken dctIdStart (some (id, token)) ownerDest
        ≠ Except.ok tx) := by
  refine ⟨?_, ?_, ?_⟩
  · intro h
    simp [destroytoken, h]
  · intro h1 h2
    simp [destroytoken, h1, h2]
  · intro h tx
    rcases h with h | h
    · simp [destroytoken, h]
    · by_cases hlt : id < dctIdStart
      · simp [destroytoken, hlt]
      · simp [destroytoken, hlt, h]

theorem destroytoken_rejects_witness :
    destroytoken 128 (some (5, ⟨77, 0, -1⟩)) (some 1)
      = Except.error DestroyTokenErr.stableCoin
    ∧ destroytoken 128 (some (200, ⟨77, 9, 50⟩)) (some 1)
      = Except.error DestroyTokenErr.alreadyDestroyed
    ∧ destroytoken 128 (some (5, ⟨77, 0, -1⟩)) (some 1) ≠ Except.ok 77 :=
  ⟨(destroytoken_rejects_reserved_and_destroyed 128 5 ⟨77, 0, -1⟩
      (some 1)).1 (by decide),
   (destroytoken_rejects_reserved_and_destroyed 128 200 ⟨77, 9, 50⟩
      (some 1)).2.1 (by decide) (by decide),
   (destroytoken_rejects_reserved_and_destroyed 128 5 ⟨77, 0, -1⟩
      (some 1)).2.2 (Or.inl (by decide)) 77⟩

/-- Claim C10: on a masternode whose stored minted-blocks counter is 0,
`DecrementMintedBy` on its operator key wraps the 32-bit unsigned counter
modulo `2 ^ 32`: the node is written back with `mintedBlocks =
4294967295`, with no failure, no saturation at zero and no negative
value. -/
theorem decrement_wraps_at_zero (c base : CMasternodesView)
    (minter nodeId : Nat) (node : CMasternode)
    (h1 : Cache.ExistMasternodeAuth c base AuthIndex.ByOperator minter
      = some (minter, nodeId))
    (h2 : Cache.ExistMasternodeID c base nodeId = some node)
    (h0 : node.mintedBlocks = 0) :
    Cache.DecrementMintedBy c base minter
      = ExecResult.ok
          { c with
              allNodes := mapSet c.allNodes nodeId { node with mintedBlocks := 4294967295 } }
    ∧ mapFind (mapSet c.allNodes nodeId { node with mintedBlocks := 4294967295 }) nodeId
      = some { node with mintedBlocks := 4294967295 } := by
  constructor
  · simp only [Cache.DecrementMintedBy, h1, h2, h0]
    norm_num
  · rw [mapFind_mapSet]
    simp

/-- The zero-counter masternode of the C10 witness. -/
def c10Node : CMasternode :=
  { CMasternode.empty with mintedBlocks := 0, operatorAuthAddress := 3 }

/-- The C10 witness cache overlay: operator index `3 -> 5`, node table
`5 -> c10Node` with a zero counter. -/
def c10Cache : CMasternodesView :=
  { allNodes := [(5, c10Node)]
    nodesByOwner := []
    nodesByOperator := [(3, 5)]
    blocksUndo := [] }

theorem decrement_wraps_at_zero_witness :
    Cache.DecrementMintedBy c10Cache CMasternodesView.emptyView 3
      = ExecResult.ok
          { c10Cache with
              allNodes := mapSet c10Cache.allNodes 5 { c10Node with mintedBlocks := 4294967295 } }
    ∧ mapFind (mapSet c10Cache.allNodes 5 { c10Node with mintedBlocks := 4294967295 }) 5
      = some { c10Node with mintedBlocks := 4294967295 } :=
  decrement_wraps_at_zero c10Cache CMasternodesView.emptyView 3 5 c10Node
    (by decide) (by decide) (by decide)

end MN
